import Mathlib

/-!
# Verification of the LayerZero omnichain-demo relayer

Shallow embedding of the relayer's core modules
(`relayer/src/{verification,eth,solana_sim,state_machine,db,types,event}.rs`)
and proofs of the specification claims about them.

Modelling conventions:
* Bytes are `Nat` (values < 256 where the source manipulates `u8`); byte
  sequences are `List Nat`.  Machine-integer overflow is modelled with
  explicit bounds (`2 ^ 64`) where the source behaviour depends on it.
* SHA-256 and keccak-256 are modelled symbolically as injective tagged
  embeddings of their input (`1 :: data`, `2 :: data`): the claims depend
  only on the hashes being deterministic, injective and non-empty, which
  real digests satisfy.
* secp256k1 ECDSA is modelled symbolically: a signature records the
  signing key and the digest that was signed, and recovery returns the
  key's address exactly when the digest matches.  This is the functional
  contract of `Wallet::sign_hash` / `Signature::recover` used by the code
  (both operate on the raw 32-byte digest, with no message prefix).
* Ethereum addresses are `Nat`; the code compares `format!("{:?}", addr)`
  strings case-insensitively, and since `{:?}` prints a fixed lowercase
  hex form, that comparison is equality of the underlying addresses.
* Database rows are Lean structures; SQL `COALESCE(?, col)` is modelled
  by `coalesce`.  Timestamps (`datetime('now')`, `Utc::now`) carry no
  claim-relevant information and are omitted.
-/

/-- Little-endian 8-byte encoding of a `u64` (`u64::to_le_bytes`). -/
def le64 (n : Nat) : List Nat :=
  [n % 256, n / 256 % 256, n / 256 ^ 2 % 256, n / 256 ^ 3 % 256,
   n / 256 ^ 4 % 256, n / 256 ^ 5 % 256, n / 256 ^ 6 % 256, n / 256 ^ 7 % 256]

/-- Big-endian 8-byte encoding of a `u64` (`u64::to_be_bytes`). -/
def be64 (n : Nat) : List Nat := (le64 n).reverse

/-- Big-endian interpretation of a byte slice (`U256::from_big_endian`). -/
def beNat (l : List Nat) : Nat := l.foldl (fun a b => a * 256 + b) 0

/-- ASCII code of the lowercase hex digit for `n < 16` (the alphabet used by
`hex::encode`). -/
def hexDigit (n : Nat) : Nat := if n < 10 then 48 + n else 87 + n

/-- Lowercase hex encoding of a byte sequence, as the list of ASCII codes of
the output string (`hex::encode`). -/
def hexEncode : List Nat → List Nat
  | [] => []
  | b :: t => hexDigit (b / 16) :: hexDigit (b % 16) :: hexEncode t

/-- `hex::encode` as a Lean `String`. -/
def hexString (l : List Nat) : String := String.mk ((hexEncode l).map Char.ofNat)

/-- Value of one hex digit character; `hex::decode` accepts both cases. -/
def hexDigitVal (c : Char) : Option Nat :=
  if 48 ≤ c.toNat ∧ c.toNat ≤ 57 then some (c.toNat - 48)
  else if 97 ≤ c.toNat ∧ c.toNat ≤ 102 then some (c.toNat - 87)
  else if 65 ≤ c.toNat ∧ c.toNat ≤ 70 then some (c.toNat - 55)
  else none

/-- `hex::decode`: fails on odd length or non-hex characters. -/
def hexDecode : List Char → Option (List Nat)
  | [] => some []
  | [_] => none
  | c1 :: c2 :: rest =>
    match hexDigitVal c1, hexDigitVal c2, hexDecode rest with
    | some h, some lo, some t => some ((h * 16 + lo) :: t)
    | _, _, _ => none

/-- UTF-8 encoding of one scalar value (`str::as_bytes`, per code point). -/
def utf8Char (c : Char) : List Nat :=
  let n := c.toNat
  if n < 0x80 then [n]
  else if n < 0x800 then [0xC0 + n / 64, 0x80 + n % 64]
  else if n < 0x10000 then
    [0xE0 + n / 4096, 0x80 + n / 64 % 64, 0x80 + n % 64]
  else
    [0xF0 + n / 262144, 0x80 + n / 4096 % 64, 0x80 + n / 64 % 64, 0x80 + n % 64]

/-- UTF-8 bytes of a Rust string (`str::as_bytes`). -/
def utf8 (s : String) : List Nat := (s.data.map utf8Char).flatten

/-- Whether a byte is a UTF-8 continuation byte (`0x80..0xBF`). -/
def utf8Cont (b : Nat) : Bool := 0x80 ≤ b ∧ b < 0xC0

/-- Strict UTF-8 decoding of a byte sequence into code points, rejecting
overlong forms, surrogates and values above `0x10FFFF` exactly as
`std::str::from_utf8` does. -/
def utf8DecodeChars : List Nat → Option (List Char)
  | [] => some []
  | b :: rest =>
    if b < 0x80 then (utf8DecodeChars rest).map (fun cs => Char.ofNat b :: cs)
    else if b < 0xC2 then none
    else if b < 0xE0 then
      match rest with
      | b2 :: rest2 =>
        if utf8Cont b2 then
          (utf8DecodeChars rest2).map
            (fun cs => Char.ofNat ((b - 0xC0) * 64 + (b2 - 0x80)) :: cs)
        else none
      | [] => none
    else if b < 0xF0 then
      match rest with
      | b2 :: b3 :: rest3 =>
        if utf8Cont b2 ∧ utf8Cont b3 ∧
            (b = 0xE0 → 0xA0 ≤ b2) ∧ (b = 0xED → b2 < 0xA0) then
          (utf8DecodeChars rest3).map
            (fun cs =>
              Char.ofNat ((b - 0xE0) * 4096 + (b2 - 0x80) * 64 + (b3 - 0x80)) :: cs)
        else none
      | _ => none
    else if b < 0xF5 then
      match rest with
      | b2 :: b3 :: b4 :: rest4 =>
        if utf8Cont b2 ∧ utf8Cont b3 ∧ utf8Cont b4 ∧
            (b = 0xF0 → 0x90 ≤ b2) ∧ (b = 0xF4 → b2 < 0x90) then
          (utf8DecodeChars rest4).map
            (fun cs =>
              Char.ofNat ((b - 0xF0) * 262144 + (b2 - 0x80) * 4096 +
                (b3 - 0x80) * 64 + (b4 - 0x80)) :: cs)
        else none
      | _ => none
    else none

/-- `std::str::from_utf8(bytes).ok().map(String::from)`. -/
def utf8Decode (l : List Nat) : Option String :=
  (utf8DecodeChars l).map String.mk

/-- `s.parse::<u64>().unwrap_or(0)` for decimal strings produced by
`to_string` on unsigned integers. -/
def parseU64 (s : String) : Nat :=
  match s.toNat? with
  | some n => if n < 2 ^ 64 then n else 0
  | none => 0

/-- `i64` reading of a `u64` value (`as i64`, two's complement). -/
def u64AsI64 (n : Nat) : Int :=
  if n < 2 ^ 63 then (n : Int) else (n : Int) - 2 ^ 64

/- ## Symbolic cryptography -/

/-- Symbolic SHA-256: a deterministic injective digest of the input.  Real
digests are 32 bytes and never empty; the tag preserves non-emptiness. -/
def sha256 (data : List Nat) : List Nat := 1 :: data

/-- Symbolic keccak-256 (`ethers::utils::keccak256`), tagged differently
from `sha256`. -/
def keccak256 (data : List Nat) : List Nat := 2 :: data

/-- Symbolic secp256k1 ECDSA signature: records the key and the exact
digest passed to `Wallet::sign_hash` (which signs the digest as-is,
without any message prefix). -/
structure EcdsaSig where
  key : Nat
  digest : List Nat
  deriving DecidableEq, Repr

/-- `Wallet::sign_hash`: sign the 32-byte digest directly. -/
def walletSignHash (key : Nat) (digest : List Nat) : EcdsaSig := ⟨key, digest⟩

/-- The Ethereum address derived from a secp256k1 key (`Wallet::address`);
symbolically the key itself (any injective derivation works). -/
def addressOf (key : Nat) : Nat := key

/-- `Signature::recover` over a raw digest (`RecoveryMessage::Hash`):
succeeds with the signer's address exactly when the digest matches the
one that was signed. -/
def ecrecover (sig : EcdsaSig) (digest : List Nat) : Option Nat :=
  if sig.digest = digest then some (addressOf sig.key) else none

/- ## types.rs / event.rs -/

/-- `MessageState` (types.rs). -/
inductive MessageState
  | observed
  | persisted
  | verified
  | sentToSolana
  | executed
  | settled
  | failed
  | rolledBack
  deriving DecidableEq, Repr

/-- `Display for MessageState` (lowercase snake case). -/
def stateName : MessageState → String
  | .observed => "observed"
  | .persisted => "persisted"
  | .verified => "verified"
  | .sentToSolana => "sent_to_solana"
  | .executed => "executed"
  | .settled => "settled"
  | .failed => "failed"
  | .rolledBack => "rolled_back"

/-- `Actor` (event.rs). -/
inductive Actor
  | ethereum
  | relayer
  | solana
  | dashboard
  deriving DecidableEq, Repr

/-- `Step` (event.rs). -/
inductive Step
  | locked
  | observed
  | verified
  | executed
  | minted
  | burned
  | rollback
  | settled
  deriving DecidableEq, Repr

/-- `Status` (event.rs). -/
inductive Status
  | success
  | failure
  | retry
  deriving DecidableEq, Repr

/-- A `LifecycleEvent` (event.rs); the wall-clock timestamp is omitted. -/
structure EventRec where
  traceId : String
  nonce : Nat
  actor : Actor
  step : Step
  status : Status
  detail : Option String
  deriving DecidableEq, Repr

/-- `LifecycleEvent::new(..).with_detail(..)`. -/
def mkEvent (traceId : String) (nonce : Nat) (actor : Actor) (step : Step)
    (status : Status) (detail : Option String) : EventRec :=
  ⟨traceId, nonce, actor, step, status, detail⟩

/- ## verification.rs -/

/-- `ProofBundle` (types.rs).  The hex-string hash fields are kept as the
ASCII byte lists of the hex strings (what `String::as_bytes` yields); the
signature field either holds a decodable 65-byte signature or is empty. -/
inductive SigField
  | empty
  | sig (s : EcdsaSig)
  deriving DecidableEq, Repr

structure ProofBundle where
  blockHeader : List Nat
  eventRoot : List Nat
  inclusionProof : List (List Nat)
  validatorSignature : SigField
  relayerAddress : Nat
  nonce : Nat
  verified : Bool
  deriving DecidableEq, Repr

/-- `compute_signing_message`: keccak256 of the concatenated hex-string
bytes of the two hashes and the big-endian nonce. -/
def compute_signing_message (blockHeader eventRoot : List Nat) (nonce : Nat) :
    List Nat :=
  keccak256 (blockHeader ++ eventRoot ++ be64 nonce)

/-- `generate_proof_bundle` (verification.rs). -/
def generate_proof_bundle (nonce blockNumber : Nat) (txHash : String)
    (eventData : List Nat) (relayerKey : Nat) : ProofBundle :=
  let blockHeader :=
    hexEncode (sha256 (utf8 "block_header:" ++ le64 blockNumber ++ utf8 txHash))
  let eventRoot := hexEncode (sha256 (utf8 "event_root:" ++ eventData))
  let inclusionProof :=
    (List.range 3).map fun i =>
      hexEncode (sha256 (utf8 "proof_node:" ++ utf8 (toString i) ++
        le64 nonce ++ eventData))
  let message := compute_signing_message blockHeader eventRoot nonce
  let signature := walletSignHash relayerKey message
  { blockHeader := blockHeader
    eventRoot := eventRoot
    inclusionProof := inclusionProof
    validatorSignature := .sig signature
    relayerAddress := addressOf relayerKey
    nonce := nonce
    verified := false }

/-- `verify_proof_bundle` (verification.rs).  The source compares
`format!("{:?}", recovered).to_lowercase()` with the lowercased claimed
address; since `{:?}` prints a canonical lowercase hex form, this is
equality of the underlying addresses. -/
def verify_proof_bundle (proof : ProofBundle) : Except String Bool :=
  if proof.blockHeader = [] then .error "Missing block header"
  else if proof.eventRoot = [] then .error "Missing event root"
  else if proof.inclusionProof = [] then .error "Missing inclusion proof"
  else
    match proof.validatorSignature with
    | .empty => .error "Missing validator signature"
    | .sig signature =>
      if proof.nonce = 0 then .error "Invalid nonce in proof bundle"
      else
        let message :=
          compute_signing_message proof.blockHeader proof.eventRoot proof.nonce
        match ecrecover signature message with
        | none => .error "signature recovery failed"
        | some recovered =>
          if recovered = proof.relayerAddress then .ok true
          else .error "ECDSA verification failed"

/- ## eth.rs -/

/-- `sign_settlement` (eth.rs): signs `keccak256(be64(nonce) ∥ result)`
with `Wallet::sign_hash`, i.e. the raw digest with no prefix. -/
def sign_settlement (privateKey : Nat) (nonce : Nat) (result : List Nat) :
    EcdsaSig :=
  walletSignHash privateKey (keccak256 (be64 nonce ++ result))

/-- Modelled from the spec: the "personal message" digest of the source
chain — `keccak256("\x19Ethereum Signed Message:\n32" ∥ hash)` — which the
spec (and the comment above `sign_settlement`) say is the digest actually
signed.  The escrow contract itself is outside the repository. -/
def ethPersonalDigest (hash : List Nat) : List Nat :=
  keccak256 (utf8 "\x19Ethereum Signed Message:\n32" ++ hash)

/-- Modelled from the spec: `sign_settlement` as §4.D describes it, signing
the prefixed digest of the packed `(nonce, result)` message. -/
def sign_settlement_spec (privateKey : Nat) (nonce : Nat)
    (result : List Nat) : EcdsaSig :=
  walletSignHash privateKey (ethPersonalDigest (keccak256 (be64 nonce ++ result)))

/-- A raw Ethereum log as `parse_log` receives it. -/
structure EthLog where
  topics : List (List Nat)
  data : List Nat
  blockNumber : Option Nat
  txHash : Option (List Nat)
  deriving DecidableEq, Repr

/-- `CrossChainRequestEvent` (eth.rs). -/
structure CrossChainRequestEvent where
  traceId : List Nat
  nonce : Nat
  sender : List Nat
  amount : Nat
  payload : List Nat
  deadline : Nat
  blockNumber : Nat
  txHash : List Nat
  deriving DecidableEq, Repr

/-- Outcome of `parse_log`: a decoded event, a recoverable decode error
(`anyhow::bail!`, logged and skipped by the caller), or a panic (slice
index out of bounds / `as_u64` / `as_usize` overflow), which aborts
instead of being reported as an error. -/
inductive ParseResult
  | ok (e : CrossChainRequestEvent)
  | err (msg : String)
  | panic
  deriving DecidableEq, Repr

/-- Rust slice `l[a..b]` for `a ≤ b ≤ l.length` (bounds checked by the
callers below before use). -/
def byteSlice (l : List Nat) (a b : Nat) : List Nat := (l.take b).drop a

/-- `parse_log` (eth.rs).  Panics are made explicit: `U256::as_u64` and
`U256::as_usize` panic on overflow, and slice indexing panics when the
range end exceeds the data length. -/
def parse_log (log : EthLog) : ParseResult :=
  let traceId := log.topics.getD 1 (List.replicate 32 0)
  let nonceWord := log.topics.getD 2 (List.replicate 32 0)
  let nonceVal := beNat nonceWord
  if 2 ^ 64 ≤ nonceVal then .panic
  else
    let data := log.data
    if data.length < 128 then
      .err ("Log data too short: " ++ toString data.length ++ " bytes")
    else
      let sender := byteSlice data 12 32
      let amount := beNat (byteSlice data 32 64)
      let payloadOffset := beNat (byteSlice data 64 96)
      if 2 ^ 64 ≤ payloadOffset then .panic
      else if data.length < payloadOffset + 32 then .panic
      else
        let payloadLen := beNat (byteSlice data payloadOffset (payloadOffset + 32))
        if 2 ^ 64 ≤ payloadLen then .panic
        else if data.length < payloadOffset + 32 + payloadLen then .panic
        else
          .ok { traceId := traceId
                nonce := nonceVal
                sender := sender
                amount := amount
                payload := byteSlice data (payloadOffset + 32)
                  (payloadOffset + 32 + payloadLen)
                deadline := beNat (byteSlice data 96 128)
                blockNumber := log.blockNumber.getD 0
                txHash := log.txHash.getD (List.replicate 32 0) }

/- ## solana_sim.rs -/

/-- Largest `u64` value. -/
def U64_MAX : Nat := 2 ^ 64 - 1

/-- `execute_on_solana` (solana_sim.rs): the body is infallible (it always
returns `Ok`), so it is embedded as a total function.
`amount.checked_mul(2).unwrap_or(u64::MAX)`. -/
def execute_on_solana (nonce amount : Nat) (traceId : List Nat) :
    String × Nat :=
  let result := if amount * 2 < 2 ^ 64 then amount * 2 else U64_MAX
  let sig := "sim_" ++ toString nonce ++ "_" ++ hexString (traceId.take 8)
  (sig, result)

/-- `saturating_mul(amount, 2)` as the spec states the result law. -/
def saturatingMul2 (amount : Nat) : Nat := min (amount * 2) U64_MAX

/- ## state_machine.rs: description extraction -/

/-- `extract_description` (state_machine.rs). -/
def extract_description (payload : List Nat) : Option String :=
  if payload.length < 18 then none
  else
    let descLen := payload[16]! * 256 + payload[17]!
    if descLen = 0 ∨ payload.length < 18 + descLen then none
    else utf8Decode ((payload.drop 18).take descLen)

/-- The description law as the claim states it: null when the payload is
shorter than 18 bytes, when the 2-byte big-endian length field at bytes
16..18 is 0, when the payload is shorter than `18 + desc_len`, or when
bytes `18..18+desc_len` are not valid UTF-8; otherwise those bytes decoded
as UTF-8. -/
def description_spec (payload : List Nat) : Option String :=
  if payload.length < 18 then none
  else if beNat (byteSlice payload 16 18) = 0 then none
  else if payload.length < 18 + beNat (byteSlice payload 16 18) then none
  else
    match utf8Decode (byteSlice payload 18 (18 + beNat (byteSlice payload 16 18))) with
    | none => none
    | some s => some s

/-- A `messages` table row (`CrossChainMessage`, types.rs); the
auto-increment id and timestamps are omitted. -/
structure Msg where
  nonce : Nat
  traceId : String
  sender : String
  amount : String
  payload : String
  deadline : Int
  description : Option String
  state : MessageState
  result : Option String
  solanaSignature : Option String
  ethSettleTx : Option String
  proofJson : Option ProofBundle
  retryCount : Int
  errorMessage : Option String
  deriving DecidableEq, Repr

/- ## db.rs -/

/-- SQL `COALESCE(?, col)`: a non-null bind replaces the column, a null
bind keeps its current value. -/
def coalesce (bind current : Option String) : Option String :=
  match bind with
  | some x => some x
  | none => current

/-- `update_message_state` (db.rs), restricted to the row it addresses:
writes the new state and coalesces the four optional artifact columns. -/
def update_message_state (m : Msg) (newState : MessageState)
    (result solanaSig ethTx errMsg : Option String) : Msg :=
  { m with
    state := newState
    result := coalesce result m.result
    solanaSignature := coalesce solanaSig m.solanaSignature
    ethSettleTx := coalesce ethTx m.ethSettleTx
    errorMessage := coalesce errMsg m.errorMessage }

/- ## state_machine.rs: the drive phase -/

/-- `MAX_RETRIES` (state_machine.rs). -/
def MAX_RETRIES : Int := 1

/-- `step_for_state` (state_machine.rs). -/
def step_for_state : MessageState → Step
  | .observed | .persisted => .observed
  | .verified => .verified
  | .sentToSolana => .executed
  | .executed => .executed
  | .settled => .settled
  | .failed => .settled
  | .rolledBack => .rollback

/-- The random draws and external-RPC outcome of one handler invocation:
`simFail` is `should_simulate_failure()`, `retryFlip` is
`retry_also_fails()`, and `settleResult` is the outcome of
`eth::call_settle` (`some tx_hash` on confirmation, `none` on RPC
error). -/
structure VisitOracle where
  simFail : Bool
  retryFlip : Bool
  settleResult : Option String
  deriving DecidableEq, Repr

/-- Result of one step-handler: the message row after the handler's
writes, the events it appended before returning, and `some e` when it
returned `Err(e)` (the injected bails happen before any write except the
`Burned` event in the settlement handler). -/
structure HRes where
  msg : Msg
  events : List EventRec
  err : Option String
  deriving DecidableEq, Repr

/-- The shared fault-injection shape of the three handlers: bail when
`should_simulate_failure()` fires, unless this is a retry visit
(`retry_count > 0`) whose coin flip lets the retry succeed. -/
def injectedBail (o : VisitOracle) (retryCount : Int) : Bool :=
  o.simFail ∧ ((0 < retryCount ∧ o.retryFlip) ∨ ¬0 < retryCount)

/-- `advance_persisted_to_verified` (state_machine.rs): build and verify a
proof bundle (block number 0, the trace-id string as tx hash, the stored
hex payload string's bytes as event data), store it, advance to
`verified` and emit the `Verified` event. -/
def advance_persisted_to_verified (o : VisitOracle) (relayerKey : Nat)
    (m : Msg) : HRes :=
  if injectedBail o m.retryCount then
    ⟨m, [], some (if 0 < m.retryCount then
      "Simulated: light-client verification failed (retry)"
      else "Simulated: light-client verification timeout")⟩
  else
    let proof := generate_proof_bundle m.nonce 0 m.traceId (utf8 m.payload)
      relayerKey
    match verify_proof_bundle proof with
    | .error e => ⟨m, [], some e⟩
    | .ok _ =>
      let m1 := { m with proofJson := some proof }
      let m2 := update_message_state m1 .verified none none none none
      ⟨m2,
       [mkEvent m.traceId m.nonce .relayer .verified .success
         (some "Simulated light-client verification passed")],
       none⟩

/-- `trim_start_matches("0x")`: strip every leading `"0x"` repetition. -/
def trim0x : List Char → List Char
  | '0' :: 'x' :: rest => trim0x rest
  | l => l

/-- The trace-id parsing in `advance_verified_to_sent`: hex-decode the
trimmed trace string into a zero-padded 32-byte array (decode failure
leaves it all zeros). -/
def parseTraceBytes (s : String) : List Nat :=
  match hexDecode (trim0x s.data) with
  | some bytes => bytes.take 32 ++ List.replicate (32 - bytes.length) 0
  | none => List.replicate 32 0

/-- `advance_verified_to_sent` (state_machine.rs): execute on the
destination, record result and signature while entering the transient
`sent_to_solana` state, then immediately advance to `executed`. -/
def advance_verified_to_sent (o : VisitOracle) (m : Msg) : HRes :=
  let amount := parseU64 m.amount
  let traceBytes := parseTraceBytes m.traceId
  if injectedBail o m.retryCount then
    ⟨m, [], some (if 0 < m.retryCount then
      "Simulated: Solana program execution reverted (retry)"
      else "Simulated: Solana transaction timeout")⟩
  else
    let sr := execute_on_solana m.nonce amount traceBytes
    let m1 := update_message_state m .sentToSolana (some (toString sr.2))
      (some sr.1) none none
    let e1 := mkEvent m.traceId m.nonce .relayer .executed .success
      (some ("solana_sig:" ++ sr.1 ++ ", result:" ++ toString sr.2))
    let m2 := update_message_state m1 .executed none none none none
    let e2 := mkEvent m.traceId m.nonce .solana .minted .success
      (some "Simulated receipt token minted")
    ⟨m2, [e1, e2], none⟩

/-- `advance_sent_to_executed` (state_machine.rs): a no-op; the state is
only reached again through crash-safe resume. -/
def advance_sent_to_executed (m : Msg) : HRes := ⟨m, [], none⟩

/-- `advance_executed_to_settled` (state_machine.rs): emit `Burned`, sign
the packed 32-byte result, call `settle()`; on RPC failure still settle
with the synthetic `0xsim_settle_{nonce}` hash. -/
def advance_executed_to_settled (o : VisitOracle) (relayerKey : Nat)
    (m : Msg) : HRes :=
  let resultValue := parseU64 (m.result.getD "0")
  let resultBytes := List.replicate 24 0 ++ be64 resultValue
  let burnEv := mkEvent m.traceId m.nonce .solana .burned .success
    (some "Simulated receipt token burned for settlement")
  if injectedBail o m.retryCount then
    ⟨m, [burnEv], some (if 0 < m.retryCount then
      "Simulated: Ethereum settlement reverted (retry)"
      else "Simulated: Ethereum gas estimation failed")⟩
  else
    let _sig := sign_settlement relayerKey m.nonce resultBytes
    match o.settleResult with
    | some txHash =>
      let m1 := update_message_state m .settled none none (some txHash) none
      ⟨m1,
       [burnEv,
        mkEvent m.traceId m.nonce .ethereum .settled .success
          (some ("tx:" ++ txHash))],
       none⟩
    | none =>
      let fakeTx := "0xsim_settle_" ++ toString m.nonce
      let m1 := update_message_state m .settled none none (some fakeTx) none
      ⟨m1,
       [burnEv,
        mkEvent m.traceId m.nonce .ethereum .settled .success
          (some ("simulated_tx:" ++ fakeTx))],
       none⟩

/-- The handler dispatch of `process_state` (`match current_state`); every
other state is `Ok(())`. -/
def dispatch_handler (o : VisitOracle) (relayerKey : Nat) (m : Msg) : HRes :=
  match m.state with
  | .persisted => advance_persisted_to_verified o relayerKey m
  | .verified => advance_verified_to_sent o m
  | .sentToSolana => advance_sent_to_executed m
  | .executed => advance_executed_to_settled o relayerKey m
  | _ => ⟨m, [], none⟩

/-- Outcome of one per-message visit of `process_state`. -/
structure VisitOut where
  msg : Msg
  events : List EventRec
  dispatched : Bool
  deriving DecidableEq, Repr

/-- The per-message body of `process_state` (state_machine.rs lines
218-284): if `retry_count >= MAX_RETRIES`, roll back *before* dispatching
any handler; otherwise dispatch, and on `Err` increment the retry count
and append a `Retry` event.  `dispatched` records whether a handler ran
on this visit. -/
def process_message_visit (o : VisitOracle) (relayerKey : Nat) (m : Msg) :
    VisitOut :=
  if MAX_RETRIES ≤ m.retryCount then
    let rollbackEv := mkEvent m.traceId m.nonce .relayer .rollback .failure
      (some ("Rollback: " ++ stateName m.state ++ " failed after " ++
        toString m.retryCount ++ " retry. Funds will be refunded."))
    let m1 := update_message_state m .rolledBack none none none
      (some ("Rolled back from " ++ stateName m.state ++ " after retry failure"))
    let settledEv := mkEvent m.traceId m.nonce .ethereum .settled .failure
      (some "Escrow refunded — rollback complete")
    ⟨m1, [rollbackEv, settledEv], false⟩
  else
    let r := dispatch_handler o relayerKey m
    match r.err with
    | none => ⟨r.msg, r.events, true⟩
    | some e =>
      ⟨{ r.msg with retryCount := r.msg.retryCount + 1 },
       r.events ++
         [mkEvent m.traceId m.nonce .relayer (step_for_state m.state) .retry
           (some ("Error: " ++ e))],
       true⟩

/-- The state order swept by `process_pending_messages`. -/
def sweepStates : List MessageState :=
  [.persisted, .verified, .sentToSolana, .executed]

/-- A fault-free oracle (used when a sweep's oracle list runs out). -/
def defaultOracle : VisitOracle :=
  { simFail := false, retryFlip := false, settleResult := some "0xtx" }

/-- Outcome of one drive-phase sweep for a single message. -/
structure SweepOut where
  msg : Msg
  events : List EventRec
  oracles : List VisitOracle
  dispatches : Nat
  deriving DecidableEq, Repr

/-- One `process_pending_messages` sweep restricted to a single message:
each `process_state(st)` call fetches the message exactly when its
current state is `st` (so a message advanced earlier in the sweep is
visited again by a later `process_state` of the same sweep), consuming
one oracle per visit. -/
def sweepDrive (relayerKey : Nat) :
    List MessageState → Msg → List VisitOracle → SweepOut
  | [], m, os => ⟨m, [], os, 0⟩
  | st :: rest, m, os =>
    if m.state = st then
      let v := process_message_visit (os.headD defaultOracle) relayerKey m
      let s := sweepDrive relayerKey rest v.msg os.tail
      ⟨s.msg, v.events ++ s.events, s.oracles,
       (if v.dispatched then 1 else 0) + s.dispatches⟩
    else sweepDrive relayerKey rest m os

/-- `resume_inflight` (state_machine.rs) restricted to a single message:
run once before the main loop, it promotes `sent_to_solana` rows to
`executed` with every artifact bind null, and touches nothing else. -/
def resume_message (m : Msg) : Msg :=
  if m.state = .sentToSolana then
    update_message_state m .executed none none none none
  else m

/- ## state_machine.rs: the observe phase -/

/-- The two durable stores. -/
structure DB where
  messages : List Msg
  events : List EventRec
  deriving DecidableEq, Repr

/-- `nonce_exists` (db.rs). -/
def nonce_exists (db : DB) (nonce : Nat) : Bool :=
  db.messages.any fun m => m.nonce = nonce

/-- `insert_message` (db.rs): `INSERT OR IGNORE` on the unique `nonce`
column — a duplicate nonce leaves the table unchanged. -/
def insert_message (db : DB) (row : Msg) : DB :=
  if nonce_exists db row.nonce then db
  else { db with messages := db.messages ++ [row] }

/-- `insert_event` (db.rs): plain append. -/
def insert_event (db : DB) (e : EventRec) : DB :=
  { db with events := db.events ++ [e] }

/-- `update_message_state` (db.rs) at the table level: updates the rows
whose `nonce` matches. -/
def db_update_message_state (db : DB) (nonce : Nat) (newState : MessageState)
    (result solanaSig ethTx errMsg : Option String) : DB :=
  { db with
    messages := db.messages.map fun m =>
      if m.nonce = nonce then
        update_message_state m newState result solanaSig ethTx errMsg
      else m }

/-- `format!("{:?}", h256)`: `0x` followed by 64 lowercase hex digits. -/
def formatH256 (bytes : List Nat) : String := "0x" ++ hexString bytes

/-- The row `insert_message` receives for a decoded event (state
`observed`, artifacts null, retry count 0). -/
def observedRow (ev : CrossChainRequestEvent) : Msg :=
  { nonce := ev.nonce
    traceId := formatH256 ev.traceId
    sender := formatH256 ev.sender
    amount := toString ev.amount
    payload := hexString ev.payload
    deadline := u64AsI64 ev.deadline
    description := extract_description ev.payload
    state := .observed
    result := none
    solanaSignature := none
    ethSettleTx := none
    proofJson := none
    retryCount := 0
    errorMessage := none }

/-- The `Locked` event emitted for a newly observed request. -/
def lockedEvent (ev : CrossChainRequestEvent) : EventRec :=
  mkEvent (formatH256 ev.traceId) ev.nonce .ethereum .locked .success
    (some ("tx:" ++ formatH256 ev.txHash))

/-- The `Observed` event emitted for a newly observed request. -/
def observedEvent (ev : CrossChainRequestEvent) : EventRec :=
  mkEvent (formatH256 ev.traceId) ev.nonce .relayer .observed .success
    (some ("block:" ++ toString ev.blockNumber))

/-- The per-log body of `poll_ethereum` (state_machine.rs lines 124-189):
parse; skip when the nonce exists; otherwise insert the row, append the
`Locked` and `Observed` events, and advance the row to `persisted`.
`none` models a panic (`parse_log` panics, or `deadline.as_u64()`
overflowing); a parse `Err` is logged and skipped. -/
def poll_ethereum_log (db : DB) (log : EthLog) : Option DB :=
  match parse_log log with
  | .panic => none
  | .err _ => some db
  | .ok ev =>
    if nonce_exists db ev.nonce then some db
    else if 2 ^ 64 ≤ ev.deadline then none
    else
      let db1 := insert_message db (observedRow ev)
      let db2 := insert_event db1 (lockedEvent ev)
      let db3 := insert_event db2 (observedEvent ev)
      some (db_update_message_state db3 ev.nonce .persisted none none none none)

/- ## Helper lemmas -/

theorem byteSlice_eq_take_drop (l : List Nat) (a b : Nat) :
    byteSlice l a b = (l.drop a).take (b - a) := by
  simp [byteSlice, List.drop_take]

theorem byteSlice_pair (l : List Nat) (h : ¬l.length < 18) :
    byteSlice l 16 18 = [l[16]!, l[17]!] := by
  have h16 : 16 < l.length := by omega
  have h17 : 17 < l.length := by omega
  have e1 : l.drop 16 = l[16] :: l.drop 17 := List.drop_eq_getElem_cons h16
  have e2 : l.drop 17 = l[17] :: l.drop 18 := List.drop_eq_getElem_cons h17
  rw [byteSlice_eq_take_drop, e1, e2, getElem!_pos l 16 h16,
    getElem!_pos l 17 h17]
  rfl

/-- C7. Destination result law: `execute_on_solana` returns exactly
`saturating_mul(amount, 2)` for every in-range amount, and in particular
saturates to `u64::MAX` at `amount = u64::MAX`; the executor's body is
infallible. -/
theorem execute_on_solana_result_law (nonce amount : Nat) (traceId : List Nat)
    (h : amount < 2 ^ 64) :
    (execute_on_solana nonce amount traceId).2 = saturatingMul2 amount ∧
    (execute_on_solana nonce U64_MAX traceId).2 = U64_MAX := by
  constructor
  · unfold execute_on_solana saturatingMul2 U64_MAX
    by_cases hc : amount * 2 < 2 ^ 64
    · simp only [hc, if_true]
      omega
    · simp only [hc, if_false]
      omega
  · unfold execute_on_solana U64_MAX
    norm_num

/-- Witness for C7 at `nonce = 1`, `amount = 500000`. -/
theorem execute_on_solana_result_law_witness :
    (execute_on_solana 1 500000 []).2 = saturatingMul2 500000 ∧
    (execute_on_solana 1 U64_MAX []).2 = U64_MAX :=
  execute_on_solana_result_law 1 500000 [] (by norm_num)

/-- C8. Description extraction: `extract_description` returns null exactly
when the payload is shorter than 18 bytes, the big-endian length field at
bytes 16..18 is zero, the payload is shorter than `18 + desc_len`, or the
description bytes are not valid UTF-8; otherwise it returns those bytes
decoded as UTF-8 — i.e. it equals the spec-side `description_spec`. -/
theorem extract_description_matches_spec (payload : List Nat) :
    extract_description payload = description_spec payload := by
  unfold extract_description description_spec
  by_cases h18 : payload.length < 18
  · simp [h18]
  · have hb : beNat (byteSlice payload 16 18) =
        payload[16]! * 256 + payload[17]! := by
      rw [byteSlice_pair payload h18]
      simp [beNat]
    simp only [h18, if_false, hb]
    by_cases h0 : payload[16]! * 256 + payload[17]! = 0
    · simp [h0]
    · by_cases hlen : payload.length < 18 + (payload[16]! * 256 + payload[17]!)
      · simp [h0, hlen]
      · have hslice : byteSlice payload 18
            (18 + (payload[16]! * 256 + payload[17]!)) =
            (payload.drop 18).take (payload[16]! * 256 + payload[17]!) := by
          rw [byteSlice_eq_take_drop]
          congr 1
          omega
        simp only [h0, hlen, if_false, false_or, hslice]
        cases utf8Decode ((payload.drop 18).take
            (payload[16]! * 256 + payload[17]!)) <;> simp

/-- C2. Proof round-trip: for every non-zero nonce, block number, tx-hash
string, event byte sequence and signing key, verifying the bundle built by
`generate_proof_bundle` succeeds — no structural rejection fires and the
recovered signer address equals the bundle's relayer address. -/
theorem verify_generate_roundtrip (nonce blockNumber : Nat) (txHash : String)
    (eventData : List Nat) (key : Nat) (h : nonce ≠ 0) :
    verify_proof_bundle
      (generate_proof_bundle nonce blockNumber txHash eventData key) =
      .ok true := by
  unfold generate_proof_bundle verify_proof_bundle
  simp [sha256, hexEncode, ecrecover, walletSignHash, h]

/-- Witness for C2 at `nonce = 1`, `block = 0`, `tx = "0xabc"`,
`event_bytes = [1, 2, 3]`, `key = 7`. -/
theorem verify_generate_roundtrip_witness :
    verify_proof_bundle (generate_proof_bundle 1 0 "0xabc" [1, 2, 3] 7) =
      .ok true :=
  verify_generate_roundtrip 1 0 "0xabc" [1, 2, 3] 7 (by decide)

/-- C9 (code bug). `sign_settlement` signs the *raw*
`keccak256(be64(nonce) ∥ result)` digest — `Wallet::sign_hash` applies no
prefix — so at the concrete input `key = 1`, `nonce = 1`,
`result = 0^24 ∥ be64(2)` the signed digest is the raw hash and differs
from the personal-message-prefixed digest that the spec (and the comment
above the call) describe. -/
theorem sign_settlement_signs_raw_digest :
    (sign_settlement 1 1 (List.replicate 24 0 ++ be64 2)).digest =
      keccak256 (be64 1 ++ (List.replicate 24 0 ++ be64 2)) ∧
    (sign_settlement 1 1 (List.replicate 24 0 ++ be64 2)).digest ≠
      (sign_settlement_spec 1 1 (List.replicate 24 0 ++ be64 2)).digest := by
  exact ⟨rfl, by decide⟩

/-- A log whose data is exactly 128 bytes and whose ABI payload-offset word
(bytes 64..96) holds 128, pointing at the end of the data. -/
def oobOffsetLog : EthLog :=
  { topics := [List.replicate 32 0, List.replicate 32 0,
      List.replicate 31 0 ++ [1]]
    data := List.replicate 64 0 ++ (List.replicate 31 0 ++ [128]) ++
      List.replicate 32 0
    blockNumber := some 1
    txHash := some (List.replicate 32 0) }

set_option maxRecDepth 4096 in
/-- C10. `parse_log` is not total past its `data.len() >= 128` guard: on a
log whose 128-byte data carries payload-offset word 128, the slice at the
payload offset runs out of bounds and the function panics instead of
returning a decode error. -/
theorem parse_log_offset_out_of_bounds_panics :
    oobOffsetLog.data.length = 128 ∧ parse_log oobOffsetLog = .panic :=
  ⟨by decide, by decide⟩

/-- A freshly persisted message with nonce 1 (retry count 0). -/
def persistedMsg : Msg :=
  { nonce := 1
    traceId := "0x" ++ String.mk (List.replicate 64 '0')
    sender := "0x" ++ String.mk (List.replicate 40 '0')
    amount := "500000"
    payload := ""
    deadline := 0
    description := none
    state := .persisted
    result := none
    solanaSignature := none
    ethSettleTx := none
    proofJson := none
    retryCount := 0
    errorMessage := none }

/-- An oracle whose fault injection fires (`should_simulate_failure()`
true) on the visit that consumes it. -/
def failOracle : VisitOracle :=
  { simFail := true, retryFlip := false, settleResult := some "0xtx" }

/-- Sweep 1: the message's first attempt fails (injected fault). -/
def c1Sweep1 : SweepOut := sweepDrive 7 sweepStates persistedMsg [failOracle]

/-- Sweep 2: every handler invocation would succeed (fault-free oracles
for all four states). -/
def c1Sweep2 : SweepOut :=
  sweepDrive 7 sweepStates c1Sweep1.msg
    [defaultOracle, defaultOracle, defaultOracle, defaultOracle]

set_option maxRecDepth 8192 in
/-- C1 (code bug).  After a single failed first attempt
(`retry_count = 1`), the next sweep rolls the message back *before*
dispatching any handler — even though every handler invocation in that
sweep would have succeeded — because `process_state` checks
`retry_count >= MAX_RETRIES` ahead of the dispatch.  The message ends in
`rolled_back` with zero handler dispatches on the second sweep, not in
`settled` as the claim (and scenario S2) require; the retry branch of the
fault-injection code is unreachable. -/
theorem rollback_fires_without_retry_dispatch :
    c1Sweep1.msg.state = .persisted ∧ c1Sweep1.msg.retryCount = 1 ∧
    (c1Sweep1.events.map fun e => (e.actor, e.step, e.status)) =
      [(.relayer, .observed, .retry)] ∧
    c1Sweep2.msg.state = .rolledBack ∧ c1Sweep2.msg.retryCount = 1 ∧
    c1Sweep2.dispatches = 0 ∧
    (c1Sweep2.events.map fun e => (e.step, e.status)) =
      [(.rollback, .failure), (.settled, .failure)] := by
  exact ⟨by decide, by decide, by decide, by decide, by decide, by decide,
    by decide⟩

/-- C3. Terminal states are absorbing: a message in `settled`, `failed` or
`rolled_back` is skipped by a whole drive-phase sweep (no visit, no
events, no state change), left untouched by the resume controller, and a
log whose nonce already has a row leaves the store unchanged during the
observe phase. -/
theorem terminal_states_absorbing (m : Msg) (key : Nat)
    (os : List VisitOracle) (db : DB) (log : EthLog)
    (ev : CrossChainRequestEvent)
    (hterm : m.state = .settled ∨ m.state = .failed ∨ m.state = .rolledBack)
    (hparse : parse_log log = .ok ev)
    (hdup : nonce_exists db ev.nonce = true) :
    sweepDrive key sweepStates m os = ⟨m, [], os, 0⟩ ∧
    resume_message m = m ∧
    poll_ethereum_log db log = some db := by
  refine ⟨?_, ?_, ?_⟩
  · rcases hterm with h | h | h <;> simp [sweepDrive, sweepStates, h]
  · rcases hterm with h | h | h <;> simp [resume_message, h]
  · simp [poll_ethereum_log, hparse, hdup]

/-- A log that decodes successfully: 160 bytes of data with payload offset
128 and payload length 0, nonce word 1, deadline word 0. -/
def validLog : EthLog :=
  { topics := [List.replicate 32 0, List.replicate 31 0 ++ [170],
      List.replicate 31 0 ++ [1]]
    data := List.replicate 64 0 ++ (List.replicate 31 0 ++ [128]) ++
      List.replicate 32 0 ++ List.replicate 32 0
    blockNumber := some 5
    txHash := some (List.replicate 32 0) }

/-- The event `validLog` decodes to. -/
def validEv : CrossChainRequestEvent :=
  { traceId := List.replicate 31 0 ++ [170]
    nonce := 1
    sender := List.replicate 20 0
    amount := 0
    payload := []
    deadline := 0
    blockNumber := 5
    txHash := List.replicate 32 0 }

/-- A message that has reached the terminal `settled` state. -/
def settledMsg : Msg :=
  { persistedMsg with
    state := .settled
    result := some "1000000"
    solanaSignature := some "sim_1_0000000000000000"
    ethSettleTx := some "0xsim_settle_1" }

/-- A store already holding a row for nonce 1. -/
def dupDB : DB := ⟨[settledMsg], []⟩

set_option maxRecDepth 8192 in
/-- Witness for C3 at the settled message and the duplicate-nonce log. -/
theorem terminal_states_absorbing_witness :
    sweepDrive 7 sweepStates settledMsg [] = ⟨settledMsg, [], [], 0⟩ ∧
    resume_message settledMsg = settledMsg ∧
    poll_ethereum_log dupDB validLog = some dupDB :=
  terminal_states_absorbing settledMsg 7 [] dupDB validLog validEv
    (Or.inl rfl) (by decide) (by decide)

/-- C4. Best-effort settlement: when the fault injection passes and
`call_settle` fails, the settlement handler still completes the
transition — synthetic hash `0xsim_settle_{nonce}` in `eth_settle_tx`,
state `settled`, and a `Settled` event with actor Ethereum, status
Success and detail starting with `simulated_tx:`; the message neither
stays `executed` nor becomes `failed`. -/
theorem settle_rpc_error_still_settles (o : VisitOracle) (key : Nat)
    (m : Msg) (hst : m.state = .executed) (hrc : m.retryCount < MAX_RETRIES)
    (hsim : o.simFail = false) (hrpc : o.settleResult = none) :
    (process_message_visit o key m).msg.state = .settled ∧
    (process_message_visit o key m).msg.ethSettleTx =
      some ("0xsim_settle_" ++ toString m.nonce) ∧
    (process_message_visit o key m).events =
      [mkEvent m.traceId m.nonce .solana .burned .success
        (some "Simulated receipt token burned for settlement"),
       mkEvent m.traceId m.nonce .ethereum .settled .success
        (some ("simulated_tx:" ++ ("0xsim_settle_" ++ toString m.nonce)))] ∧
    (process_message_visit o key m).msg.state ≠ .executed ∧
    (process_message_visit o key m).msg.state ≠ .failed := by
  have hnotroll : ¬MAX_RETRIES ≤ m.retryCount := not_le.mpr hrc
  simp [process_message_visit, hnotroll, dispatch_handler, hst,
    advance_executed_to_settled, injectedBail, hsim, hrpc,
    update_message_state, coalesce, mkEvent]

/-- A message sitting in `executed` with its destination artifacts. -/
def executedMsg : Msg :=
  { persistedMsg with
    state := .executed
    result := some "1000000"
    solanaSignature := some "sim_1_0000000000000000" }

/-- An oracle whose fault injection passes but whose `call_settle` fails. -/
def rpcDownOracle : VisitOracle :=
  { simFail := false, retryFlip := false, settleResult := none }

/-- Witness for C4 at the executed message with the settle RPC down. -/
theorem settle_rpc_error_still_settles_witness :
    (process_message_visit rpcDownOracle 7 executedMsg).msg.state =
      .settled ∧
    (process_message_visit rpcDownOracle 7 executedMsg).msg.ethSettleTx =
      some ("0xsim_settle_" ++ toString executedMsg.nonce) ∧
    (process_message_visit rpcDownOracle 7 executedMsg).events =
      [mkEvent executedMsg.traceId executedMsg.nonce .solana .burned .success
        (some "Simulated receipt token burned for settlement"),
       mkEvent executedMsg.traceId executedMsg.nonce .ethereum .settled
        .success (some ("simulated_tx:" ++
          ("0xsim_settle_" ++ toString executedMsg.nonce)))] ∧
    (process_message_visit rpcDownOracle 7 executedMsg).msg.state ≠
      .executed ∧
    (process_message_visit rpcDownOracle 7 executedMsg).msg.state ≠
      .failed :=
  settle_rpc_error_still_settles rpcDownOracle 7 executedMsg rfl
    (by decide) rfl rfl

/-- C5. Crash-safe resume preserves artifacts: the resume controller
promotes a `sent_to_solana` row to `executed` with every artifact bind
null, and `COALESCE` keeps `result`, `solana_signature`, `eth_settle_tx`
and `error_message` exactly as persisted. -/
theorem resume_promotes_and_preserves (m : Msg)
    (h : m.state = .sentToSolana) :
    (resume_message m).state = .executed ∧
    (resume_message m).result = m.result ∧
    (resume_message m).solanaSignature = m.solanaSignature ∧
    (resume_message m).ethSettleTx = m.ethSettleTx ∧
    (resume_message m).errorMessage = m.errorMessage := by
  simp [resume_message, h, update_message_state, coalesce]

/-- The scenario-S5 snapshot: crashed mid-transition in `sent_to_solana`. -/
def sentToSolanaMsg : Msg :=
  { persistedMsg with
    nonce := 42
    state := .sentToSolana
    result := some "200"
    solanaSignature := some "sim_42_deadbeef" }

/-- Witness for C5 at the S5 snapshot message. -/
theorem resume_promotes_and_preserves_witness :
    (resume_message sentToSolanaMsg).state = .executed ∧
    (resume_message sentToSolanaMsg).result = sentToSolanaMsg.result ∧
    (resume_message sentToSolanaMsg).solanaSignature =
      sentToSolanaMsg.solanaSignature ∧
    (resume_message sentToSolanaMsg).ethSettleTx =
      sentToSolanaMsg.ethSettleTx ∧
    (resume_message sentToSolanaMsg).errorMessage =
      sentToSolanaMsg.errorMessage :=
  resume_promotes_and_preserves sentToSolanaMsg rfl

/-- The database state after ingesting a fresh decoded event: one new row
(advanced to `persisted`) and the `Locked`/`Observed` event pair. -/
def ingestedDB (db : DB) (ev : CrossChainRequestEvent) : DB :=
  ⟨db.messages ++
    [update_message_state (observedRow ev) .persisted none none none none],
   db.events ++ [lockedEvent ev, observedEvent ev]⟩

/-- C6. Idempotent ingestion: processing a decodable log whose nonce is
new appends exactly one message row (ending in `persisted`) and exactly
the `Locked` and `Observed` events; processing the same log again leaves
the store unchanged, because the nonce-exists check skips it before any
insert or event emission. -/
theorem ingestion_idempotent (db : DB) (log : EthLog)
    (ev : CrossChainRequestEvent)
    (hparse : parse_log log = .ok ev)
    (hnew : nonce_exists db ev.nonce = false)
    (hdl : ev.deadline < 2 ^ 64) :
    poll_ethereum_log db log = some (ingestedDB db ev) ∧
    (update_message_state (observedRow ev) .persisted none none none
      none).nonce = ev.nonce ∧
    (update_message_state (observedRow ev) .persisted none none none
      none).state = .persisted ∧
    (lockedEvent ev).step = .locked ∧ (observedEvent ev).step = .observed ∧
    poll_ethereum_log (ingestedDB db ev) log = some (ingestedDB db ev) := by
  have hAll : ∀ x ∈ db.messages, ¬(x.nonce = ev.nonce) := by
    have h := hnew
    unfold nonce_exists at h
    rw [List.any_eq_false] at h
    intro x hx
    simpa using h x hx
  have hrow : (observedRow ev).nonce = ev.nonce := rfl
  have hdl' : ¬(2 ^ 64 ≤ ev.deadline) := not_le.mpr hdl
  have hmap : db.messages.map
      (fun m => if m.nonce = ev.nonce then
        update_message_state m .persisted none none none none else m) =
      db.messages := by
    have := List.map_congr_left (l := db.messages)
      (f := fun m => if m.nonce = ev.nonce then
        update_message_state m .persisted none none none none else m)
      (g := id) (fun a ha => by simp [hAll a ha])
    simpa using this
  refine ⟨?_, rfl, rfl, rfl, rfl, ?_⟩
  · unfold poll_ethereum_log
    rw [hparse]
    simp only [hnew, Bool.false_eq_true, if_false, hdl', insert_message,
      insert_event, db_update_message_state, ingestedDB, List.map_append,
      hmap, List.map_cons, List.map_nil, hrow, if_pos, Option.some.injEq]
    simp
  · unfold poll_ethereum_log
    rw [hparse]
    have hex : nonce_exists (ingestedDB db ev) ev.nonce = true := by
      unfold nonce_exists ingestedDB
      simp
      exact Or.inr rfl
    simp [hex]

set_option maxRecDepth 8192 in
/-- Witness for C6: ingesting `validLog` into an empty store, twice. -/
theorem ingestion_idempotent_witness :
    poll_ethereum_log ⟨[], []⟩ validLog = some (ingestedDB ⟨[], []⟩ validEv) ∧
    (update_message_state (observedRow validEv) .persisted none none none
      none).nonce = validEv.nonce ∧
    (update_message_state (observedRow validEv) .persisted none none none
      none).state = .persisted ∧
    (lockedEvent validEv).step = .locked ∧
    (observedEvent validEv).step = .observed ∧
    poll_ethereum_log (ingestedDB ⟨[], []⟩ validEv) validLog =
      some (ingestedDB ⟨[], []⟩ validEv) :=
  ingestion_idempotent ⟨[], []⟩ validLog validEv (by decide) rfl (by decide)
